import Mathlib

/- Verification of the row/shape comparison core of ExcelDiffVisualizer
   (src/comparison.py) against its specification.

   Modelling conventions.
   Python float arithmetic is embedded as exact fractions (integer numerator and
   positive integer denominator, compared by cross multiplication, never
   normalised, so every operation is plain integer arithmetic that the kernel
   can evaluate).  Every float the source manipulates here is produced by a
   handful of additions, multiplications and divisions of small integers, and
   every comparison it makes against the 0.8 threshold is decided at a distance
   far above any possible IEEE rounding error, so the exact model and the
   float64 program agree on every branch taken.
   Strings are Lean strings, with the Python methods (strip, lower, startswith,
   substring containment) implemented over the underlying character list.
   A pandas row is an association list from column name to cell value; a
   missing value (NaN) is an explicit Value constructor.  A DataFrame is a
   column list plus a row list; row indices are list positions, matching the
   integer positions the source uses throughout.
   The source computes common_cols as list(set(df1.columns) & set(df2.columns)),
   whose iteration order Python leaves unspecified; the embedding therefore
   takes the common-column list as an explicit parameter, instantiated in
   concrete runs with permutations of the actual intersection. -/

/-- Exact fraction standing in for a Python float.  The denominator is kept
positive by every constructor below; fractions are never reduced, and all
comparisons are by cross multiplication. -/
structure Frac where
  num : Int
  den : Int
deriving Repr, DecidableEq

/-- Strict order on fractions (denominators positive). -/
abbrev fLt (a b : Frac) : Prop := a.num * b.den < b.num * a.den

/-- Non-strict order on fractions. -/
abbrev fLe (a b : Frac) : Prop := a.num * b.den ≤ b.num * a.den

/-- Semantic equality of fractions (cross multiplication). -/
abbrev fEq (a b : Frac) : Prop := a.num * b.den = b.num * a.den

def fAdd (a b : Frac) : Frac := ⟨a.num * b.den + b.num * a.den, a.den * b.den⟩

def fSub (a b : Frac) : Frac := ⟨a.num * b.den - b.num * a.den, a.den * b.den⟩

def fMul (a b : Frac) : Frac := ⟨a.num * b.num, a.den * b.den⟩

/-- Division of fractions; the sign is moved to the numerator so the
denominator stays positive.  Division by zero is unreachable in the source
(always guarded); the model returns 0 there. -/
def fDiv (a b : Frac) : Frac :=
  if b.num < 0 then ⟨-(a.num * b.den), a.den * (-b.num)⟩
  else if b.num = 0 then ⟨0, 1⟩
  else ⟨a.num * b.den, a.den * b.num⟩

def fAbs (a : Frac) : Frac := ⟨(a.num.natAbs : Int), a.den⟩

/-- Python max of two floats: the first argument wins ties. -/
def fMax (a b : Frac) : Frac := if fLt a b then b else a

/-- Python str.lower for the ASCII range (all column names and cell texts the
claims touch are ASCII or, like the Japanese ordinal header, caseless). -/
def charLower (c : Char) : Char :=
  if 'A' ≤ c ∧ c ≤ 'Z' then Char.ofNat (c.toNat + 32) else c

def pyLower (s : String) : String := ⟨s.data.map charLower⟩

def trimCharList (l : List Char) : List Char :=
  ((l.dropWhile Char.isWhitespace).reverse.dropWhile Char.isWhitespace).reverse

/-- Python str.strip (whitespace on both ends). -/
def pyStrip (s : String) : String := ⟨trimCharList s.data⟩

/-- Python substring test (the `in` operator on strings). -/
def containsSub (s sub : String) : Bool :=
  s.data.tails.any (fun t => sub.data.isPrefixOf t)

def startsWithStr (s p : String) : Bool := p.data.isPrefixOf s.data

/-- Scalar cell value of a loaded table: pandas integer, float, text, or the
NaN missing-value sentinel. -/
inductive Value where
  | vInt : Int → Value
  | vFloat : Frac → Value
  | vStr : String → Value
  | vNaN : Value
deriving Repr, DecidableEq

/-- A pandas row as the source observes it: an association list from column
name to value.  Looking up a column that the row lacks yields NaN (pandas
reindexing semantics; the source only ever reads common columns, which are
present in both rows). -/
abbrev Row := List (String × Value)

def rowGet (r : Row) (c : String) : Value :=
  match r.find? (fun p => p.1 == c) with
  | some p => p.2
  | none => Value.vNaN

structure DataFrame where
  cols : List String
  rows : List Row
deriving Repr, DecidableEq

def rowAt (rs : List Row) (i : Nat) : Row := rs.getD i []

/-- pd.isna on a scalar. -/
def isna (v : Value) : Bool :=
  match v with
  | Value.vNaN => true
  | _ => false

/-- pd.api.types.is_numeric_dtype(type(val)): true for pandas ints and floats,
including NaN (a float); false for strings. -/
def is_numeric (v : Value) : Bool :=
  match v with
  | Value.vInt _ => true
  | Value.vFloat _ => true
  | Value.vNaN => true
  | Value.vStr _ => false

/-- Python truthiness of a scalar, as used by the string-similarity guards
(empty string and zero are falsy; NaN is truthy). -/
def pyFalsy (v : Value) : Bool :=
  match v with
  | Value.vStr s => s == ""
  | Value.vInt n => n == 0
  | Value.vFloat f => f.num == 0
  | Value.vNaN => false

/-- Digits of the fractional part of n/d, most significant first, stopping when
the remainder vanishes; the fuel bound of 17 covers every terminating decimal
a Python float literal in these tables produces. -/
def fracDigits : Nat → Nat → Nat → String
  | _, _, 0 => ""
  | r, d, fuel + 1 =>
    if r = 0 then ""
    else toString (r * 10 / d) ++ fracDigits (r * 10 % d) d fuel

/-- Python str() of a float, for floats whose decimal expansion terminates
(e.g. str(5.0) = "5.0", str(5.5) = "5.5"); all float cells in the tables under
verification are of this form. -/
def floatStr (q : Frac) : String :=
  let sgn := if q.num < 0 then "-" else ""
  let n := q.num.natAbs
  let d := q.den.natAbs
  let frac := fracDigits (n % d) d 17
  sgn ++ toString (n / d) ++ "." ++ (if frac = "" then "0" else frac)

/-- Python str() of a scalar (str(np.nan) is "nan"). -/
def pyStr (v : Value) : String :=
  match v with
  | Value.vInt n => toString n
  | Value.vFloat q => floatStr q
  | Value.vStr s => s
  | Value.vNaN => "nan"

def rstripChar (s : String) (c : Char) : String :=
  ⟨(s.data.reverse.dropWhile (fun d => d == c)).reverse⟩

/-- The source renders a non-integer float for the fingerprint by formatting
it with six fixed decimals and stripping trailing zeros and then a trailing
decimal point.  Modelled exactly for fractions whose value terminates within
six decimal places (all inputs under verification); rounding of longer
expansions is modelled as round-half-up. -/
def fixed6 (q : Frac) : String :=
  let sgn := if q.num < 0 then "-" else ""
  let n := q.num.natAbs
  let d := q.den.natAbs
  let scaled := (n * 1000000 + d / 2) / d
  let ip := scaled / 1000000
  let fp := scaled % 1000000
  let fps := toString fp
  let fps := String.mk (List.replicate (6 - fps.length) '0') ++ fps
  rstripChar (rstripChar (sgn ++ toString ip ++ "." ++ fps) '0') '.'

/-- True when the float's value is an integer (Python float.is_integer). -/
def fracIsInt (q : Frac) : Bool := q.num % q.den == 0

/-- normalize_numeric from create_row_hash: missing becomes "", integers and
integer-valued floats print without a fractional part, other floats print with
six fixed decimals stripped of trailing zeros, anything else is str()-ed. -/
def normalize_numeric (v : Value) : String :=
  match v with
  | Value.vNaN => ""
  | Value.vInt n => toString n
  | Value.vFloat q => if fracIsInt q then toString (q.num / q.den) else fixed6 q
  | Value.vStr s => s

/-- normalize_string from create_row_hash: missing becomes "", otherwise
str(val).strip().lower(). -/
def normalize_string (v : Value) : String :=
  match v with
  | Value.vNaN => ""
  | v => pyLower (pyStrip (pyStr v))

/-- is_no_column: the column name, lower-cased and stripped, is one of the
ordinal headers. -/
def is_no_column (c : String) : Bool :=
  ["no", "no.", "番号"].contains (pyStrip (pyLower c))

/-- create_row_hash: the row fingerprint built from the key columns, with
ordinal columns tagged no_ref and weighted 0.1, other key columns weighted by
their position from the end of the non-ordinal key list. -/
def create_row_hash (key_columns : List String) (row : Row) : String :=
  let no_columns := key_columns.filter (fun c => is_no_column c)
  let other_key_columns := key_columns.filter (fun c => !is_no_column c)
  let otherVals := other_key_columns.map (fun c =>
    let v := rowGet row c
    if is_numeric v then normalize_numeric v else normalize_string v)
  let noVals := no_columns.map (fun c => "no_ref:" ++ normalize_numeric (rowGet row c))
  let values := otherVals ++ noVals
  let weighted := values.enum.map (fun p =>
    let w :=
      if startsWithStr p.2 "no_ref:" then "0.1"
      else if p.1 < other_key_columns.length then toString (other_key_columns.length - p.1)
      else "0.5"
    w ++ ":" ++ p.2)
  String.intercalate "||" weighted

/-- Key-column selection: common columns whose lower-cased name contains an
identifier-like pattern; if none, the first up to three common columns. -/
def keyColumns (common_cols : List String) : List String :=
  let pats := ["id", "code", "key", "name", "no", "番号"]
  let ks := common_cols.filter (fun c => pats.any (fun k => containsSub (pyLower c) k))
  if ks.isEmpty then common_cols.take (min 3 common_cols.length) else ks

/-- The hash_map_df2 dict comprehension over enumerate of the table-B
fingerprints: later insertions overwrite earlier ones, so lookup returns the
LAST index carrying the fingerprint. -/
def dictLookup (hashes : List String) (h : String) : Option Nat :=
  hashes.enum.foldl (fun acc p => if p.2 = h then some p.1 else acc) none

/-- The exact-match loop: for each table-A row in original order, look its
fingerprint up in the table-B dict; pair it with the target index when that
index is not already consumed.  The accumulator is the list of pairs recorded
so far (its second components are matched_df2_indices). -/
def exactPassGo (hashes2 : List String) : List (Nat × String) → List (Nat × Nat) → List (Nat × Nat)
  | [], pairs => pairs
  | (i, h) :: rest, pairs =>
    match dictLookup hashes2 h with
    | some j =>
      if j ∈ pairs.map Prod.snd then exactPassGo hashes2 rest pairs
      else exactPassGo hashes2 rest (pairs ++ [(i, j)])
    | none => exactPassGo hashes2 rest pairs

def exactPass (hashes1 hashes2 : List String) : List (Nat × Nat) :=
  exactPassGo hashes2 hashes1.enum []

/-- Cell rendering used by both cell-comparison loops:
str(row[col]).strip() if pd.notna(row[col]) else ''. -/
def cellVal (row : Row) (c : String) : String :=
  match rowGet row c with
  | Value.vNaN => ""
  | v => pyStrip (pyStr v)

/-- One reported difference, mirroring the dict the source appends to the
differences list (a modified record carries exactly the six keys written at
lines 374-381 / 507-514 of src/comparison.py; added and deleted records carry
a row index and a values dict). -/
inductive DiffRecord where
  | modified : String → Nat → Nat → String → String → DiffRecord
  | deleted : Nat → List (String × Value) → DiffRecord
  | added : Nat → List (String × Value) → DiffRecord
deriving Repr, DecidableEq

/-- The keys of the Python dict the source emits for each record kind. -/
def recordKeys : DiffRecord → List String
  | DiffRecord.modified _ _ _ _ _ =>
      ["type", "column", "row_index_old", "row_index_new", "value_old", "value_new"]
  | DiffRecord.deleted _ _ => ["type", "row_index", "values"]
  | DiffRecord.added _ _ => ["type", "row_index", "values"]

/-- The value of the record's type key. -/
def recType : DiffRecord → String
  | DiffRecord.modified _ _ _ _ _ => "modified"
  | DiffRecord.deleted _ _ => "deleted"
  | DiffRecord.added _ _ => "added"

/-- The column of a modified record (and "" for the row-level kinds). -/
def recColumn : DiffRecord → String
  | DiffRecord.modified c _ _ _ _ => c
  | _ => ""

/-- Cell comparison attached to an exact-fingerprint match: ordinal columns
are skipped by the continue at line 360, every other common column whose two
rendered values differ yields a modified record. -/
def exactCellDiffs (cc : List String) (row1 row2 : Row) (i j : Nat) : List DiffRecord :=
  cc.foldl (fun acc c =>
    if is_no_column c then acc
    else
      let v1 := cellVal row1 c
      let v2 := cellVal row2 c
      if v1 ≠ v2 then acc ++ [DiffRecord.modified c i j v1 v2] else acc) []

/-- Cell comparison attached to a similarity match (lines 493-514): identical
to the exact-pass loop except that NO ordinal-column skip is performed. -/
def simCellDiffs (cc : List String) (row1 row2 : Row) (i j : Nat) : List DiffRecord :=
  cc.foldl (fun acc c =>
    let v1 := cellVal row1 c
    let v2 := cellVal row2 c
    if v1 ≠ v2 then acc ++ [DiffRecord.modified c i j v1 v2] else acc) []

/-- Python float() applied to a string: optional sign, digits with at most one
decimal point (the subset that appears in comparable cells; anything else is a
ValueError, i.e. none). -/
def digitsVal (l : List Char) : Option Nat :=
  if l.isEmpty then none
  else if l.all (fun c => c.isDigit) then
    some (l.foldl (fun a c => a * 10 + (c.toNat - 48)) 0)
  else none

def strToFloat (s : String) : Option Frac :=
  let l := trimCharList s.data
  let sgn : Int := match l.head? with | some '-' => -1 | _ => 1
  let l := match l with
    | '-' :: t => t
    | '+' :: t => t
    | t => t
  match l.splitOn '.' with
  | [a] => (digitsVal a).map (fun n => ⟨sgn * n, 1⟩)
  | [a, b] =>
    if a.isEmpty && b.isEmpty then none
    else
      let ai := if a.isEmpty then some 0 else digitsVal a
      let bi := if b.isEmpty then some 0 else digitsVal b
      match ai, bi with
      | some ia, some ib =>
        let k : Nat := b.length
        some ⟨sgn * (ia * 10 ^ k + ib), (10 : Int) ^ k⟩
      | _, _ => none
  | _ => none

/-- float(v) for a scalar already holding a number, none when it raises. -/
def toFloat? (v : Value) : Option Frac :=
  match v with
  | Value.vInt n => some ⟨n, 1⟩
  | Value.vFloat q => some q
  | Value.vStr s => strToFloat s
  | Value.vNaN => none

/-- calculate_string_similarity: truthiness guards on the raw values, then a
positional character-match count over the normalised strings divided by the
longer length. -/
def calculate_string_similarity (v1 v2 : Value) : Frac :=
  if pyFalsy v1 && pyFalsy v2 then ⟨1, 1⟩
  else if pyFalsy v1 || pyFalsy v2 then ⟨0, 1⟩
  else
    let t1 := (pyLower (pyStrip (pyStr v1))).data
    let t2 := (pyLower (pyStrip (pyStr v2))).data
    if t1 = t2 then ⟨1, 1⟩
    else
      let p := if t1.length < t2.length then (t2, t1) else (t1, t2)
      let m := (p.1.zip p.2).countP (fun q => q.1 == q.2)
      fDiv ⟨(m : Int), 1⟩ ⟨(max p.1.length p.2.length : Int), 1⟩

/-- calculate_numeric_similarity: NaN guards, exact equality, then
max(0, 1 - |a-b| / max(|a|,|b|)); a failed float() coercion scores 0. -/
def calculate_numeric_similarity (v1 v2 : Value) : Frac :=
  if isna v1 && isna v2 then ⟨1, 1⟩
  else if isna v1 || isna v2 then ⟨0, 1⟩
  else
    match toFloat? v1, toFloat? v2 with
    | some n1, some n2 =>
      if fEq n1 n2 then ⟨1, 1⟩
      else
        let mx := fMax (fAbs n1) (fAbs n2)
        if fEq mx ⟨0, 1⟩ then ⟨1, 1⟩
        else fMax ⟨0, 1⟩ (fSub ⟨1, 1⟩ (fDiv (fAbs (fSub n1 n2)) mx))
    | _, _ => ⟨0, 1⟩

/-- calculate_row_similarity: weighted per-column agreement over the common
columns; ordinal columns weigh 0.1, the first two key columns 3.0, other key
columns 2.0, the rest 1.0; the result is the weighted sum divided by the total
weight (0 when there are no columns). -/
def calculate_row_similarity (cc kc : List String) (row1 row2 : Row) : Frac :=
  let mt := cc.foldl (fun (acc : Frac × Frac) c =>
    let is_no := is_no_column c
    let weight : Frac :=
      if is_no then ⟨1, 10⟩
      else if c ∈ kc.take 2 then ⟨3, 1⟩
      else if c ∈ kc then ⟨2, 1⟩
      else ⟨1, 1⟩
    let v1 := rowGet row1 c
    let v2 := rowGet row2 c
    let sim :=
      if is_numeric v1 || is_numeric v2 then calculate_numeric_similarity v1 v2
      else calculate_string_similarity v1 v2
    (fAdd acc.1 (fMul weight sim), fAdd acc.2 weight)) (⟨0, 1⟩, ⟨0, 1⟩)
  if fLt ⟨0, 1⟩ mt.2 then fDiv mt.1 mt.2 else ⟨0, 1⟩

/-- similarity_threshold = 0.8. -/
def simThreshold : Frac := ⟨8, 10⟩

/-- The inner candidate scan of the greedy pass: best_match starts at None
with best_similarity at the threshold, and a candidate replaces it only on a
strictly greater score, so the lowest-index maximum wins. -/
def bestMatchGo (cc kc : List String) (row1 : Row) (rows2 : List Row) :
    List Nat → Option Nat → Frac → Option Nat
  | [], best, _ => best
  | j :: rest, best, bestSim =>
    let s := calculate_row_similarity cc kc row1 (rowAt rows2 j)
    if fLt bestSim s then bestMatchGo cc kc row1 rows2 rest (some j) s
    else bestMatchGo cc kc row1 rows2 rest best bestSim

def bestMatch (cc kc : List String) (row1 : Row) (rows2 : List Row)
    (un2 : List Nat) : Option Nat :=
  bestMatchGo cc kc row1 rows2 un2 none simThreshold

/-- row[common_cols].to_dict(): the common-column subset of a row, missing
values INCLUDED (to_dict keeps NaN entries). -/
def commonSubset (cc : List String) (row : Row) : List (String × Value) :=
  cc.map (fun c => (c, rowGet row c))

/-- The greedy similarity loop over the rows of A left unmatched by the exact
pass.  Note that the candidate list un2 is the one computed BEFORE the loop
and is never shrunk as candidates are consumed, exactly as in the source
(matched_df2_indices grows but unmatched_df2 is not re-filtered), so a B row
can be chosen by several A rows.  Accumulators: similarity pairs, deleted A
indices, and the difference records emitted along the way. -/
def simGo (cc kc : List String) (rows1 rows2 : List Row) (un2 : List Nat) :
    List Nat → List (Nat × Nat) → List Nat → List DiffRecord →
    List (Nat × Nat) × List Nat × List DiffRecord
  | [], pairs, dels, recs => (pairs, dels, recs)
  | i :: rest, pairs, dels, recs =>
    let row1 := rowAt rows1 i
    match bestMatch cc kc row1 rows2 un2 with
    | some j =>
      simGo cc kc rows1 rows2 un2 rest (pairs ++ [(i, j)]) dels
        (recs ++ simCellDiffs cc row1 (rowAt rows2 j) i j)
    | none =>
      simGo cc kc rows1 rows2 un2 rest pairs (dels ++ [i])
        (recs ++ [DiffRecord.deleted i (commonSubset cc row1)])

/-- Fingerprints of every row of a table (df.apply(create_row_hash, axis=1)). -/
def rowHashes (kc : List String) (df : DataFrame) : List String :=
  df.rows.map (create_row_hash kc)

/-- The pairs recorded by the exact-fingerprint pass of compare_dataframes. -/
def exactPairsOf (df1 df2 : DataFrame) (cc : List String) : List (Nat × Nat) :=
  exactPass (rowHashes (keyColumns cc) df1) (rowHashes (keyColumns cc) df2)

/-- The modified records the exact pass emits, one cell-comparison sweep per
pair, in pairing order (the source appends them inside the matching loop). -/
def exactRecords (df1 df2 : DataFrame) (cc : List String) : List DiffRecord :=
  (exactPairsOf df1 df2 cc).flatMap (fun p =>
    exactCellDiffs cc (rowAt df1.rows p.1) (rowAt df2.rows p.2) p.1 p.2)

/-- unmatched_df1: indices of A not matched by the exact pass, ascending. -/
def unmatched1Of (df1 df2 : DataFrame) (cc : List String) : List Nat :=
  (List.range df1.rows.length).filter
    (fun i => decide (i ∉ (exactPairsOf df1 df2 cc).map Prod.fst))

/-- unmatched_df2: indices of B not matched by the exact pass, ascending. -/
def unmatched2Of (df1 df2 : DataFrame) (cc : List String) : List Nat :=
  (List.range df2.rows.length).filter
    (fun j => decide (j ∉ (exactPairsOf df1 df2 cc).map Prod.snd))

/-- Output of the greedy similarity loop: similarity pairs, deleted A indices,
and the records (modified and deleted) emitted inside the loop. -/
def simOut (df1 df2 : DataFrame) (cc : List String) :
    List (Nat × Nat) × List Nat × List DiffRecord :=
  simGo cc (keyColumns cc) df1.rows df2.rows (unmatched2Of df1 df2 cc)
    (unmatched1Of df1 df2 cc) [] [] []

def simPairsOf (df1 df2 : DataFrame) (cc : List String) : List (Nat × Nat) :=
  (simOut df1 df2 cc).1

def deletedIdxOf (df1 df2 : DataFrame) (cc : List String) : List Nat :=
  (simOut df1 df2 cc).2.1

def simRecords (df1 df2 : DataFrame) (cc : List String) : List DiffRecord :=
  (simOut df1 df2 cc).2.2

/-- matched_df2_indices once both passes are done. -/
def matched2Of (df1 df2 : DataFrame) (cc : List String) : List Nat :=
  (exactPairsOf df1 df2 cc ++ simPairsOf df1 df2 cc).map Prod.snd

/-- B indices reported added: everything never entered into
matched_df2_indices, scanned in table order. -/
def addedIdxOf (df1 df2 : DataFrame) (cc : List String) : List Nat :=
  (List.range df2.rows.length).filter
    (fun j => decide (j ∉ matched2Of df1 df2 cc))

def addedRecords (df1 df2 : DataFrame) (cc : List String) : List DiffRecord :=
  (addedIdxOf df1 df2 cc).map (fun j =>
    DiffRecord.added j (commonSubset cc (rowAt df2.rows j)))

/-- One per-cell style annotation (field, rowIndex, cellClass). -/
structure StyleRec where
  field : String
  rowIndex : Nat
  cellClass : String
deriving Repr, DecidableEq

/-- Styles appended for one matched pair on one side: a tag per non-skipped
column whose rendered values differ.  skipNo is true in the exact pass (which
continues past ordinal columns) and false in the similarity pass. -/
def modifiedStyles (skipNo : Bool) (cc : List String) (row1 row2 : Row)
    (idx : Nat) : List StyleRec :=
  cc.foldl (fun acc c =>
    if skipNo && is_no_column c then acc
    else if cellVal row1 c ≠ cellVal row2 c then
      acc ++ [⟨c, idx, "ag-cell-modified"⟩]
    else acc) []

/-- Styles for a fully deleted or added row: one tag per non-missing common
cell. -/
def rowStyles (cls : String) (cc : List String) (row : Row) (idx : Nat) :
    List StyleRec :=
  cc.foldl (fun acc c =>
    if isna (rowGet row c) then acc else acc ++ [⟨c, idx, cls⟩]) []

def df1StylesOf (df1 df2 : DataFrame) (cc : List String) : List StyleRec :=
  (exactPairsOf df1 df2 cc).flatMap (fun p =>
    modifiedStyles true cc (rowAt df1.rows p.1) (rowAt df2.rows p.2) p.1) ++
  (unmatched1Of df1 df2 cc).flatMap (fun i =>
    let row1 := rowAt df1.rows i
    match bestMatch cc (keyColumns cc) row1 df2.rows (unmatched2Of df1 df2 cc) with
    | some j => modifiedStyles false cc row1 (rowAt df2.rows j) i
    | none => rowStyles "ag-cell-deleted" cc row1 i)

def df2StylesOf (df1 df2 : DataFrame) (cc : List String) : List StyleRec :=
  (exactPairsOf df1 df2 cc).flatMap (fun p =>
    modifiedStyles true cc (rowAt df1.rows p.1) (rowAt df2.rows p.2) p.2) ++
  (unmatched1Of df1 df2 cc).flatMap (fun i =>
    let row1 := rowAt df1.rows i
    match bestMatch cc (keyColumns cc) row1 df2.rows (unmatched2Of df1 df2 cc) with
    | some j => modifiedStyles false cc row1 (rowAt df2.rows j) j
    | none => []) ++
  (addedIdxOf df1 df2 cc).flatMap (fun j =>
    rowStyles "ag-cell-added" cc (rowAt df2.rows j) j)

/-- The in-place assignment df['_row_hash'] = df.apply(create_row_hash): the
helper column is appended to the INPUT frame itself (the inputs here never
already carry a _row_hash column). -/
def addHashColumn (df : DataFrame) (hs : List String) : DataFrame :=
  { cols := df.cols ++ ["_row_hash"],
    rows := List.zipWith (fun r h => r ++ [("_row_hash", Value.vStr h)]) df.rows hs }

/-- The drop('_row_hash') applied to the returned copies (a no-op when the
copy was taken before the helper column was added). -/
def dropHashColumn (df : DataFrame) : DataFrame :=
  if "_row_hash" ∈ df.cols then
    { cols := df.cols.filter (fun c => c ≠ "_row_hash"),
      rows := df.rows.map (fun r => r.filter (fun p => p.1 ≠ "_row_hash")) }
  else df

/-- Everything compare_dataframes computes: the returned dict (result copies,
style lists, differences) plus the matching state (pairs, deleted and added
indices) and the final state of the two INPUT frames after the in-place
_row_hash mutation at lines 330-331, which the function never undoes. -/
structure CompareResult where
  exactPairs : List (Nat × Nat)
  simPairs : List (Nat × Nat)
  deletedIdx : List Nat
  addedIdx : List Nat
  differences : List DiffRecord
  df1_styles : List StyleRec
  df2_styles : List StyleRec
  df1_result : DataFrame
  df2_result : DataFrame
  df1_final : DataFrame
  df2_final : DataFrame
deriving Repr, DecidableEq

/-- compare_dataframes(df1, df2) with the common-column ordering passed
explicitly (the source's set-intersection iteration order is unspecified). -/
def compare_dataframes (df1 df2 : DataFrame) (cc : List String) : CompareResult :=
  { exactPairs := exactPairsOf df1 df2 cc
    simPairs := simPairsOf df1 df2 cc
    deletedIdx := deletedIdxOf df1 df2 cc
    addedIdx := addedIdxOf df1 df2 cc
    differences := exactRecords df1 df2 cc ++ simRecords df1 df2 cc ++
      addedRecords df1 df2 cc
    df1_styles := df1StylesOf df1 df2 cc
    df2_styles := df2StylesOf df1 df2 cc
    df1_result := dropHashColumn df1
    df2_result := dropHashColumn df2
    df1_final := addHashColumn df1 (rowHashes (keyColumns cc) df1)
    df2_final := addHashColumn df2 (rowHashes (keyColumns cc) df2) }

/-- A graphical object as extract_shape_info materialises it. -/
structure Shape where
  x : Int
  y : Int
  stype : String
  width : Option Int
  height : Option Int
  text : String
deriving Repr, DecidableEq

inductive ShapeDiff where
  | modifiedS : Nat → Shape → Shape → ShapeDiff
  | addedS : Nat → Shape → ShapeDiff
  | deletedS : Nat → Shape → ShapeDiff
deriving Repr, DecidableEq

/-- The positional match rule of compare_shapes: equal x, y and type. -/
def sameShapePos (s1 s2 : Shape) : Bool :=
  s1.x == s2.x && s1.y == s2.y && s1.stype == s2.stype

/-- compare_shapes: for each shape of the second list, the FIRST positional
match in the first list (the inner loop breaks); differing width, height or
text makes it modified, no match makes it added.  Then every first-list shape
with no positional match anywhere in the second list is deleted.  No shape is
ever consumed by a match. -/
def compare_shapes (shapes1 shapes2 : List Shape) : List ShapeDiff :=
  (shapes2.enum.flatMap (fun p =>
    match shapes1.find? (fun s1 => sameShapePos s1 p.2) with
    | some s1 =>
      if s1.width ≠ p.2.width ∨ s1.height ≠ p.2.height ∨ s1.text ≠ p.2.text
      then [ShapeDiff.modifiedS p.1 s1 p.2] else []
    | none => [ShapeDiff.addedS p.1 p.2])) ++
  (shapes1.enum.flatMap (fun p =>
    if shapes2.any (fun s2 => sameShapePos p.2 s2) then []
    else [ShapeDiff.deletedS p.1 p.2]))

/- Concrete tables used by the closed counterexample and witness theorems.
   Cell types follow pandas column coercion: an all-integer column loads as
   int64 cells, an all-float column as float64 cells. -/

/-- Two rows whose id values 100 and 101 are both within similarity 0.8 of the
single table-B id 102 (columns id, v; key column id). -/
def tblA_twin : DataFrame :=
  { cols := ["id", "v"],
    rows := [[("id", Value.vInt 100), ("v", Value.vStr "a")],
             [("id", Value.vInt 101), ("v", Value.vStr "a")]] }

def tblB_twin : DataFrame :=
  { cols := ["id", "v"],
    rows := [[("id", Value.vInt 102), ("v", Value.vStr "a")]] }

/-- A table whose two rows share the fingerprint (key column id holds 1 in
both) while differing in the non-key column v. -/
def tblDup : DataFrame :=
  { cols := ["id", "v"],
    rows := [[("id", Value.vInt 1), ("v", Value.vStr "x")],
             [("id", Value.vInt 1), ("v", Value.vStr "y")]] }

/-- Scenario 5 of the specification: columns a, b, c with no key-like name. -/
def tblA_abc : DataFrame :=
  { cols := ["a", "b", "c"],
    rows := [[("a", Value.vInt 1), ("b", Value.vInt 2), ("c", Value.vInt 3)]] }

def tblB_abc : DataFrame :=
  { cols := ["a", "b", "c"],
    rows := [[("a", Value.vInt 1), ("b", Value.vInt 2), ("c", Value.vInt 30)]] }

/-- The six possible iteration orders of the common-column set a, b, c. -/
def abcOrders : List (List String) :=
  [["a", "b", "c"], ["a", "c", "b"], ["b", "a", "c"],
   ["b", "c", "a"], ["c", "a", "b"], ["c", "b", "a"]]

/-- Scenario 2 of the specification: Alice renamed Alicia under equal id. -/
def tblA_alice : DataFrame :=
  { cols := ["id", "name"],
    rows := [[("id", Value.vInt 1), ("name", Value.vStr "Alice")]] }

def tblB_alice : DataFrame :=
  { cols := ["id", "name"],
    rows := [[("id", Value.vInt 1), ("name", Value.vStr "Alicia")]] }

/-- Rows differing only in the ordinal column no. -/
def tblA_ord : DataFrame :=
  { cols := ["name", "no"],
    rows := [[("name", Value.vStr "alice"), ("no", Value.vInt 1)]] }

def tblB_ord : DataFrame :=
  { cols := ["name", "no"],
    rows := [[("name", Value.vStr "alice"), ("no", Value.vInt 2)]] }

/-- Rows equal up to numeric type: integer 5 against float 5.0 in the non-key
column value. -/
def tblA_five : DataFrame :=
  { cols := ["id", "value"],
    rows := [[("id", Value.vInt 1), ("value", Value.vInt 5)]] }

def tblB_five : DataFrame :=
  { cols := ["id", "value"],
    rows := [[("id", Value.vInt 1), ("value", Value.vFloat ⟨5, 1⟩)]] }

/-- A single row holding a missing value, against an empty table with the same
columns. -/
def tblA_nan : DataFrame :=
  { cols := ["id", "v"],
    rows := [[("id", Value.vInt 5), ("v", Value.vNaN)]] }

def tblB_empty : DataFrame := { cols := ["id", "v"], rows := [] }

/-- A shape, and a copy of it at the same position with a different width. -/
def shBase : Shape :=
  { x := 0, y := 0, stype := "image", width := some 10, height := some 10, text := "" }

def shWide : Shape :=
  { x := 0, y := 0, stype := "image", width := some 20, height := some 10, text := "" }

theorem dictLookup_nil (h : String) : dictLookup [] h = none := rfl

theorem dictLookup_concat (hs : List String) (x h : String) :
    dictLookup (hs ++ [x]) h = if x = h then some hs.length else dictLookup hs h := by
  unfold dictLookup
  rw [List.enum_append, List.foldl_append]
  simp [List.enumFrom_cons]

theorem dictLookup_spec (hs : List String) (h : String) :
    ∀ j, dictLookup hs h = some j →
      j < hs.length ∧ hs.getD j "" = h ∧
        ∀ k, j < k → k < hs.length → hs.getD k "" ≠ h := by
  induction hs using List.reverseRecOn with
  | nil => intro j hj; simp [dictLookup_nil] at hj
  | append_singleton hs x ih =>
    intro j hj
    rw [dictLookup_concat] at hj
    by_cases hx : x = h
    · rw [if_pos hx] at hj
      obtain rfl : hs.length = j := by exact Option.some.inj hj
      refine ⟨by simp, ?_, ?_⟩
      · rw [List.getD_append_right hs [x] "" hs.length (le_refl _)]
        simpa using hx
      · intro k hk1 hk2
        simp only [List.length_append, List.length_singleton] at hk2
        omega
    · rw [if_neg hx] at hj
      obtain ⟨h1, h2, h3⟩ := ih j hj
      refine ⟨by simp; omega, ?_, ?_⟩
      · rw [List.getD_append hs [x] "" j h1]; exact h2
      · intro k hk1 hk2
        simp only [List.length_append, List.length_singleton] at hk2
        rcases Nat.lt_or_ge k hs.length with hk | hk
        · rw [List.getD_append hs [x] "" k hk]; exact h3 k hk1 hk
        · have : k = hs.length := by omega
          subst this
          rw [List.getD_append_right hs [x] "" hs.length (le_refl _)]
          simpa using hx

theorem dictLookup_self (hs : List String) (hnd : hs.Nodup) :
    ∀ i, i < hs.length → dictLookup hs (hs.getD i "") = some i := by
  induction hs using List.reverseRecOn with
  | nil => intro i hi; simp at hi
  | append_singleton hs x ih =>
    intro i hi
    simp only [List.length_append, List.length_singleton] at hi
    rw [List.nodup_append] at hnd
    obtain ⟨hnd1, _, hdisj⟩ := hnd
    rcases Nat.lt_or_ge i hs.length with hilt | hige
    · rw [List.getD_append hs [x] "" i hilt, dictLookup_concat]
      have hmem : hs.getD i "" ∈ hs := by
        rw [List.getD_eq_getElem _ _ hilt]; exact List.getElem_mem _
      have hne : x ≠ hs.getD i "" := by
        intro he; exact hdisj hmem (by rw [← he]; exact List.mem_singleton_self x)
      rw [if_neg hne]
      exact ih hnd1 i hilt
    · have : i = hs.length := by omega
      subst this
      rw [List.getD_append_right hs [x] "" hs.length (le_refl _), dictLookup_concat]
      simp

theorem exactPassGo_mem (h2 : List String) :
    ∀ (wl : List (Nat × String)) (pairs : List (Nat × Nat)) (p : Nat × Nat),
      p ∈ exactPassGo h2 wl pairs →
      p ∈ pairs ∨ ∃ q ∈ wl, q.1 = p.1 ∧ dictLookup h2 q.2 = some p.2 := by
  intro wl
  induction wl with
  | nil => intro pairs p hp; exact Or.inl hp
  | cons q rest ih =>
    intro pairs p hp
    obtain ⟨i, h⟩ := q
    rw [exactPassGo] at hp
    cases hdl : dictLookup h2 h with
    | none =>
      rw [hdl] at hp
      dsimp only at hp
      rcases ih pairs p hp with h1 | ⟨r, hr1, hr2⟩
      · exact Or.inl h1
      · exact Or.inr ⟨r, List.mem_cons_of_mem _ hr1, hr2⟩
    | some j =>
      rw [hdl] at hp
      dsimp only at hp
      by_cases hmem : j ∈ pairs.map Prod.snd
      · rw [if_pos hmem] at hp
        rcases ih pairs p hp with h1 | ⟨r, hr1, hr2⟩
        · exact Or.inl h1
        · exact Or.inr ⟨r, List.mem_cons_of_mem _ hr1, hr2⟩
      · rw [if_neg hmem] at hp
        rcases ih _ p hp with h1 | ⟨r, hr1, hr2⟩
        · rcases List.mem_append.mp h1 with h2' | h3
          · exact Or.inl h2'
          · rw [List.mem_singleton] at h3
            subst h3
            exact Or.inr ⟨(i, h), List.mem_cons_self _ _, rfl, hdl⟩
        · exact Or.inr ⟨r, List.mem_cons_of_mem _ hr1, hr2⟩

theorem exactPassGo_snd_nodup (h2 : List String) :
    ∀ (wl : List (Nat × String)) (pairs : List (Nat × Nat)),
      (pairs.map Prod.snd).Nodup →
      ((exactPassGo h2 wl pairs).map Prod.snd).Nodup := by
  intro wl
  induction wl with
  | nil => intro pairs hnd; exact hnd
  | cons q rest ih =>
    intro pairs hnd
    obtain ⟨i, h⟩ := q
    rw [exactPassGo]
    cases hdl : dictLookup h2 h with
    | none => exact ih pairs hnd
    | some j =>
      dsimp only
      by_cases hmem : j ∈ pairs.map Prod.snd
      · rw [if_pos hmem]; exact ih pairs hnd
      · rw [if_neg hmem]
        refine ih _ ?_
        rw [List.map_append]
        simp only [List.map_cons, List.map_nil]
        rw [List.nodup_append]
        exact ⟨hnd, List.nodup_singleton _, fun a ha hb => by
          rw [List.mem_singleton] at hb; subst hb; exact hmem ha⟩

theorem exactPassGo_fst_nodup (h2 : List String) :
    ∀ (wl : List (Nat × String)) (pairs : List (Nat × Nat)),
      (pairs.map Prod.fst ++ wl.map Prod.fst).Nodup →
      ((exactPassGo h2 wl pairs).map Prod.fst).Nodup := by
  intro wl
  induction wl with
  | nil => intro pairs hnd; simpa using hnd
  | cons q rest ih =>
    intro pairs hnd
    obtain ⟨i, h⟩ := q
    have hdrop : (pairs.map Prod.fst ++ rest.map Prod.fst).Nodup := by
      refine List.Nodup.sublist ?_ hnd
      exact List.Sublist.append_left (List.sublist_cons_self _ _) _
    rw [exactPassGo]
    cases hdl : dictLookup h2 h with
    | none => exact ih pairs hdrop
    | some j =>
      dsimp only
      by_cases hmem : j ∈ pairs.map Prod.snd
      · rw [if_pos hmem]; exact ih pairs hdrop
      · rw [if_neg hmem]
        refine ih _ ?_
        rw [List.map_append]
        simp only [List.map_cons, List.map_nil, List.map_cons] at *
        rw [List.append_assoc]
        simpa using hnd

theorem exactPassGo_self (hs : List String) (hnd : hs.Nodup) :
    ∀ (rest : List String) (m : Nat), hs.drop m = rest → m ≤ hs.length →
      exactPassGo hs (List.enumFrom m rest) ((List.range m).map (fun i => (i, i))) =
      (List.range hs.length).map (fun i => (i, i)) := by
  intro rest
  induction rest with
  | nil =>
    intro m hdrop hm
    have hlen : hs.length ≤ m := by
      have := congrArg List.length hdrop
      simp [List.length_drop] at this
      omega
    have hme : m = hs.length := le_antisymm hm hlen
    subst hme
    rfl
  | cons x rest ih =>
    intro m hdrop hm
    have hmlt : m < hs.length := by
      have := congrArg List.length hdrop
      simp [List.length_drop] at this
      omega
    have hcons : hs.drop m = hs[m] :: hs.drop (m + 1) := List.drop_eq_getElem_cons hmlt
    rw [hdrop] at hcons
    obtain ⟨hx, hrest⟩ : x = hs[m] ∧ rest = hs.drop (m + 1) := by
      constructor
      · exact (List.cons.injEq _ _ _ _ ▸ hcons).1
      · exact (List.cons.injEq _ _ _ _ ▸ hcons).2
    have hgd : hs.getD m "" = x := by
      rw [List.getD_eq_getElem _ _ hmlt, hx]
    rw [List.enumFrom_cons, exactPassGo]
    rw [← hgd, dictLookup_self hs hnd m hmlt]
    dsimp only
    have hnotmem : m ∉ ((List.range m).map (fun i => (i, i))).map Prod.snd := by
      simp [List.mem_range]
    rw [if_neg hnotmem]
    have hext : ((List.range m).map (fun i => (i, i))) ++ [(m, m)] =
        (List.range (m + 1)).map (fun i => (i, i)) := by
      rw [List.range_succ, List.map_append]
      rfl
    rw [hext]
    exact ih (m + 1) hrest.symm hmlt

theorem exactPass_self (hs : List String) (hnd : hs.Nodup) :
    exactPass hs hs = (List.range hs.length).map (fun i => (i, i)) := by
  have := exactPassGo_self hs hnd hs 0 rfl (Nat.zero_le _)
  simpa [exactPass, List.enum] using this

theorem exactCellDiffs_mem_aux (row1 row2 : Row) (i j : Nat) (r : DiffRecord) :
    ∀ (l : List String) (acc : List DiffRecord),
      (r ∈ l.foldl (fun acc c =>
        if is_no_column c then acc
        else
          let v1 := cellVal row1 c
          let v2 := cellVal row2 c
          if v1 ≠ v2 then acc ++ [DiffRecord.modified c i j v1 v2] else acc) acc) ↔
      (r ∈ acc ∨ ∃ c ∈ l, is_no_column c = false ∧ cellVal row1 c ≠ cellVal row2 c ∧
        r = DiffRecord.modified c i j (cellVal row1 c) (cellVal row2 c)) := by
  intro l
  induction l with
  | nil => intro acc; simp
  | cons c rest ih =>
    intro acc
    rw [List.foldl_cons]
    by_cases hno : is_no_column c
    · rw [if_pos hno, ih]
      constructor
      · rintro (h1 | ⟨d, hd1, hd2, hd3⟩)
        · exact Or.inl h1
        · exact Or.inr ⟨d, List.mem_cons_of_mem _ hd1, hd2, hd3⟩
      · rintro (h1 | ⟨d, hd1, hd2, hd3, hd4⟩)
        · exact Or.inl h1
        · rcases List.mem_cons.mp hd1 with rfl | hd1'
          · rw [hno] at hd2; exact absurd hd2 (by simp)
          · exact Or.inr ⟨d, hd1', hd2, hd3, hd4⟩
    · rw [if_neg hno]
      dsimp only
      by_cases hne : cellVal row1 c ≠ cellVal row2 c
      · rw [if_pos hne, ih]
        constructor
        · rintro (h1 | ⟨d, hd1, hd2, hd3⟩)
          · rcases List.mem_append.mp h1 with h2' | h3
            · exact Or.inl h2'
            · rw [List.mem_singleton] at h3
              exact Or.inr ⟨c, List.mem_cons_self _ _,
                Bool.eq_false_iff.mpr hno, hne, h3⟩
          · exact Or.inr ⟨d, List.mem_cons_of_mem _ hd1, hd2, hd3⟩
        · rintro (h1 | ⟨d, hd1, hd2, hd3, hd4⟩)
          · exact Or.inl (List.mem_append.mpr (Or.inl h1))
          · rcases List.mem_cons.mp hd1 with rfl | hd1'
            · exact Or.inl (List.mem_append.mpr (Or.inr (by simp [hd4])))
            · exact Or.inr ⟨d, hd1', hd2, hd3, hd4⟩
      · rw [if_neg hne, ih]
        push_neg at hne
        constructor
        · rintro (h1 | ⟨d, hd1, hd2, hd3⟩)
          · exact Or.inl h1
          · exact Or.inr ⟨d, List.mem_cons_of_mem _ hd1, hd2, hd3⟩
        · rintro (h1 | ⟨d, hd1, hd2, hd3, hd4⟩)
          · exact Or.inl h1
          · rcases List.mem_cons.mp hd1 with rfl | hd1'
            · exact absurd hne hd3
            · exact Or.inr ⟨d, hd1', hd2, hd3, hd4⟩

theorem exactCellDiffs_mem (cc : List String) (row1 row2 : Row) (i j : Nat)
    (r : DiffRecord) :
    r ∈ exactCellDiffs cc row1 row2 i j ↔
      ∃ c ∈ cc, is_no_column c = false ∧ cellVal row1 c ≠ cellVal row2 c ∧
        r = DiffRecord.modified c i j (cellVal row1 c) (cellVal row2 c) := by
  have := exactCellDiffs_mem_aux row1 row2 i j r cc []
  simpa [exactCellDiffs] using this

theorem simCellDiffs_mem_aux (row1 row2 : Row) (i j : Nat) (r : DiffRecord) :
    ∀ (l : List String) (acc : List DiffRecord),
      (r ∈ l.foldl (fun acc c =>
        let v1 := cellVal row1 c
        let v2 := cellVal row2 c
        if v1 ≠ v2 then acc ++ [DiffRecord.modified c i j v1 v2] else acc) acc) ↔
      (r ∈ acc ∨ ∃ c ∈ l, cellVal row1 c ≠ cellVal row2 c ∧
        r = DiffRecord.modified c i j (cellVal row1 c) (cellVal row2 c)) := by
  intro l
  induction l with
  | nil => intro acc; simp
  | cons c rest ih =>
    intro acc
    rw [List.foldl_cons]
    dsimp only
    by_cases hne : cellVal row1 c ≠ cellVal row2 c
    · rw [if_pos hne, ih]
      constructor
      · rintro (h1 | ⟨d, hd1, hd2, hd3⟩)
        · rcases List.mem_append.mp h1 with h2' | h3
          · exact Or.inl h2'
          · rw [List.mem_singleton] at h3
            exact Or.inr ⟨c, List.mem_cons_self _ _, hne, h3⟩
        · exact Or.inr ⟨d, List.mem_cons_of_mem _ hd1, hd2, hd3⟩
      · rintro (h1 | ⟨d, hd1, hd2, hd3⟩)
        · exact Or.inl (List.mem_append.mpr (Or.inl h1))
        · rcases List.mem_cons.mp hd1 with rfl | hd1'
          · exact Or.inl (List.mem_append.mpr (Or.inr (by simp [hd3])))
          · exact Or.inr ⟨d, hd1', hd2, hd3⟩
    · rw [if_neg hne, ih]
      push_neg at hne
      constructor
      · rintro (h1 | ⟨d, hd1, hd2, hd3⟩)
        · exact Or.inl h1
        · exact Or.inr ⟨d, List.mem_cons_of_mem _ hd1, hd2, hd3⟩
      · rintro (h1 | ⟨d, hd1, hd2, hd3⟩)
        · exact Or.inl h1
        · rcases List.mem_cons.mp hd1 with rfl | hd1'
          · exact absurd hne hd2
          · exact Or.inr ⟨d, hd1', hd2, hd3⟩

theorem simCellDiffs_mem (cc : List String) (row1 row2 : Row) (i j : Nat)
    (r : DiffRecord) :
    r ∈ simCellDiffs cc row1 row2 i j ↔
      ∃ c ∈ cc, cellVal row1 c ≠ cellVal row2 c ∧
        r = DiffRecord.modified c i j (cellVal row1 c) (cellVal row2 c) := by
  have := simCellDiffs_mem_aux row1 row2 i j r cc []
  simpa [simCellDiffs] using this

theorem exactCellDiffs_self (cc : List String) (row : Row) (i j : Nat) :
    exactCellDiffs cc row row i j = [] := by
  rw [List.eq_nil_iff_forall_not_mem]
  intro r hr
  rw [exactCellDiffs_mem] at hr
  obtain ⟨c, _, _, hne, _⟩ := hr
  exact hne rfl

theorem simGo_count (cc kc : List String) (rows1 rows2 : List Row) (un2 : List Nat) :
    ∀ (un1 : List Nat) (pairs : List (Nat × Nat)) (dels : List Nat)
      (recs : List DiffRecord) (x : Nat),
      ((simGo cc kc rows1 rows2 un2 un1 pairs dels recs).1.map Prod.fst).count x +
        (simGo cc kc rows1 rows2 un2 un1 pairs dels recs).2.1.count x =
      (pairs.map Prod.fst).count x + dels.count x + un1.count x := by
  intro un1
  induction un1 with
  | nil => intro pairs dels recs x; simp [simGo]
  | cons i rest ih =>
    intro pairs dels recs x
    rw [simGo]
    cases hbm : bestMatch cc kc (rowAt rows1 i) rows2 un2 with
    | some j =>
      rw [ih]
      simp [List.count_cons, List.count_append]
      omega
    | none =>
      rw [ih]
      simp [List.count_cons, List.count_append]
      omega

theorem simGo_recs_mem (cc kc : List String) (rows1 rows2 : List Row) (un2 : List Nat) :
    ∀ (un1 : List Nat) (pairs : List (Nat × Nat)) (dels : List Nat)
      (recs : List DiffRecord) (r : DiffRecord),
      r ∈ (simGo cc kc rows1 rows2 un2 un1 pairs dels recs).2.2 →
      r ∈ recs ∨ (∃ c i j vo vn, r = DiffRecord.modified c i j vo vn) ∨
        ∃ i ∈ un1, r = DiffRecord.deleted i (commonSubset cc (rowAt rows1 i)) := by
  intro un1
  induction un1 with
  | nil => intro pairs dels recs r hr; exact Or.inl hr
  | cons i rest ih =>
    intro pairs dels recs r hr
    rw [simGo] at hr
    cases hbm : bestMatch cc kc (rowAt rows1 i) rows2 un2 with
    | some j =>
      rw [hbm] at hr
      dsimp only at hr
      rcases ih _ _ _ r hr with h1 | h2 | ⟨i', hi1, hi2⟩
      · rcases List.mem_append.mp h1 with ha | hb
        · exact Or.inl ha
        · rw [simCellDiffs_mem] at hb
          obtain ⟨c, _, _, hr4⟩ := hb
          exact Or.inr (Or.inl ⟨c, i, j, _, _, hr4⟩)
      · exact Or.inr (Or.inl h2)
      · exact Or.inr (Or.inr ⟨i', List.mem_cons_of_mem _ hi1, hi2⟩)
    | none =>
      rw [hbm] at hr
      dsimp only at hr
      rcases ih _ _ _ r hr with h1 | h2 | ⟨i', hi1, hi2⟩
      · rcases List.mem_append.mp h1 with ha | hb
        · exact Or.inl ha
        · rw [List.mem_singleton] at hb
          exact Or.inr (Or.inr ⟨i, List.mem_cons_self _ _, hb⟩)
      · exact Or.inr (Or.inl h2)
      · exact Or.inr (Or.inr ⟨i', List.mem_cons_of_mem _ hi1, hi2⟩)

theorem bestMatchGo_eq_none_iff (cc kc : List String) (row1 : Row) (rows2 : List Row) :
    ∀ (l : List Nat) (best : Option Nat) (s0 : Frac),
      bestMatchGo cc kc row1 rows2 l best s0 = none ↔
      best = none ∧ ∀ j ∈ l, ¬ fLt s0 (calculate_row_similarity cc kc row1 (rowAt rows2 j)) := by
  intro l
  induction l with
  | nil => intro best s0; simp [bestMatchGo]
  | cons j rest ih =>
    intro best s0
    rw [bestMatchGo]
    by_cases hcmp : fLt s0 (calculate_row_similarity cc kc row1 (rowAt rows2 j))
    · rw [if_pos hcmp, ih]
      constructor
      · rintro ⟨h1, _⟩; exact absurd h1 (by simp)
      · rintro ⟨_, h2⟩
        exact absurd hcmp (h2 j (List.mem_cons_self _ _))
    · rw [if_neg hcmp, ih]
      constructor
      · rintro ⟨h1, h2⟩
        refine ⟨h1, fun k hk => ?_⟩
        rcases List.mem_cons.mp hk with rfl | hk'
        · exact hcmp
        · exact h2 k hk'
      · rintro ⟨h1, h2⟩
        exact ⟨h1, fun k hk => h2 k (List.mem_cons_of_mem _ hk)⟩

theorem bestMatch_eq_none_iff (cc kc : List String) (row1 : Row) (rows2 : List Row)
    (un2 : List Nat) :
    bestMatch cc kc row1 rows2 un2 = none ↔
      ∀ j ∈ un2, fLe (calculate_row_similarity cc kc row1 (rowAt rows2 j)) simThreshold := by
  rw [bestMatch, bestMatchGo_eq_none_iff]
  constructor
  · rintro ⟨_, h2⟩ j hj
    have := h2 j hj
    simp only [fLt, fLe, not_lt] at *
    omega
  · intro h
    refine ⟨rfl, fun j hj => ?_⟩
    have := h j hj
    simp only [fLt, fLe, not_lt] at *
    omega

/-- C1 (corrected).  A-side completeness holds: every table-A row index lands
in exactly one outcome (old side of a match, or deleted).  B-side: every
table-B index is matched or added and never both, but the exactly-once
guarantee fails on the B side, because the greedy pass never removes
similarity-matched B rows from its candidate list (see the counterexample). -/
theorem C1_amended (df1 df2 : DataFrame) (cc : List String) :
    (∀ i, i < df1.rows.length →
      ((exactPairsOf df1 df2 cc ++ simPairsOf df1 df2 cc).map Prod.fst).count i +
        (deletedIdxOf df1 df2 cc).count i = 1) ∧
    (∀ j, j < df2.rows.length →
      (j ∈ matched2Of df1 df2 cc ∨ j ∈ addedIdxOf df1 df2 cc) ∧
      ¬(j ∈ matched2Of df1 df2 cc ∧ j ∈ addedIdxOf df1 df2 cc)) := by
  constructor
  · intro i hi
    have hnodup : ((exactPairsOf df1 df2 cc).map Prod.fst).Nodup := by
      unfold exactPairsOf exactPass
      apply exactPassGo_fst_nodup
      rw [List.map_nil, List.nil_append, List.enum_map_fst]
      exact List.nodup_range _
    have hcnt := simGo_count cc (keyColumns cc) df1.rows df2.rows
      (unmatched2Of df1 df2 cc) (unmatched1Of df1 df2 cc) [] [] [] i
    simp only [List.map_nil, List.count_nil, Nat.zero_add] at hcnt
    have hsim : simPairsOf df1 df2 cc =
        (simGo cc (keyColumns cc) df1.rows df2.rows (unmatched2Of df1 df2 cc)
          (unmatched1Of df1 df2 cc) [] [] []).1 := rfl
    have hdel : deletedIdxOf df1 df2 cc =
        (simGo cc (keyColumns cc) df1.rows df2.rows (unmatched2Of df1 df2 cc)
          (unmatched1Of df1 df2 cc) [] [] []).2.1 := rfl
    rw [List.map_append, List.count_append, hsim, hdel, Nat.add_assoc, hcnt]
    by_cases hmem : i ∈ (exactPairsOf df1 df2 cc).map Prod.fst
    · rw [List.count_eq_one_of_mem hnodup hmem]
      have hni : i ∉ unmatched1Of df1 df2 cc := by
        unfold unmatched1Of
        intro hin
        rw [List.mem_filter] at hin
        exact (of_decide_eq_true hin.2) hmem
      rw [List.count_eq_zero_of_not_mem hni]
    · rw [List.count_eq_zero_of_not_mem hmem]
      have hcntf : (unmatched1Of df1 df2 cc).count i = 1 := by
        unfold unmatched1Of
        rw [@List.count_filter ℕ _ _
          (fun k => decide (k ∉ (exactPairsOf df1 df2 cc).map Prod.fst)) i
          (List.range df1.rows.length) (decide_eq_true hmem)]
        exact List.count_eq_one_of_mem (List.nodup_range _) (List.mem_range.mpr hi)
      rw [hcntf]
  · intro j hj
    by_cases hmem : j ∈ matched2Of df1 df2 cc
    · refine ⟨Or.inl hmem, ?_⟩
      rintro ⟨_, hadd⟩
      unfold addedIdxOf at hadd
      rw [List.mem_filter] at hadd
      exact (of_decide_eq_true hadd.2) hmem
    · refine ⟨Or.inr ?_, ?_⟩
      · unfold addedIdxOf
        rw [List.mem_filter]
        exact ⟨List.mem_range.mpr hj, decide_eq_true hmem⟩
      · rintro ⟨hm, _⟩
        exact hmem hm

/-- C1 witness at a concrete run. -/
theorem C1_witness :
    ((exactPairsOf tblA_alice tblB_alice ["id", "name"] ++
        simPairsOf tblA_alice tblB_alice ["id", "name"]).map Prod.fst).count 0 +
      (deletedIdxOf tblA_alice tblB_alice ["id", "name"]).count 0 = 1 ∧
    (0 ∈ matched2Of tblA_alice tblB_alice ["id", "name"] ∨
      0 ∈ addedIdxOf tblA_alice tblB_alice ["id", "name"]) :=
  ⟨(C1_amended tblA_alice tblB_alice ["id", "name"]).1 0 (by decide),
   ((C1_amended tblA_alice tblB_alice ["id", "name"]).2 0 (by decide)).1⟩

/-- C1 counterexample: table-B row 0 of tblB_twin is the new side of TWO
matched pairs, so it does not appear in exactly one outcome. -/
theorem C1_counterexample :
    (((compare_dataframes tblA_twin tblB_twin ["id", "v"]).exactPairs ++
        (compare_dataframes tblA_twin tblB_twin ["id", "v"]).simPairs).map Prod.snd).count 0 = 2 ∧
    (compare_dataframes tblA_twin tblB_twin ["id", "v"]).simPairs = [(0, 0), (1, 0)] ∧
    (compare_dataframes tblA_twin tblB_twin ["id", "v"]).addedIdx = [] ∧
    tblB_twin.rows.length = 1 := by decide

/-- C2 (corrected).  Every pair the exact pass records points at the LAST
table-B index bearing the fingerprint (the dict comprehension overwrites
earlier duplicates), that target is consumed at most once (second components
are distinct), and a pair is recorded only via the dict lookup. -/
theorem C2_amended (h1 h2 : List String) (p : Nat × Nat)
    (hp : p ∈ exactPass h1 h2) :
    dictLookup h2 (h1.getD p.1 "") = some p.2 ∧
    p.2 < h2.length ∧ h2.getD p.2 "" = h1.getD p.1 "" ∧
    (∀ k, p.2 < k → k < h2.length → h2.getD k "" ≠ h1.getD p.1 "") ∧
    ((exactPass h1 h2).map Prod.snd).Nodup := by
  have hmem := exactPassGo_mem h2 h1.enum [] p hp
  rcases hmem with h0 | ⟨q, hq1, hq2, hq3⟩
  · exact absurd h0 (List.not_mem_nil p)
  · have hget : h1[q.1]? = some q.2 := List.mem_enum_iff_getElem?.mp hq1
    have hq1len : q.1 < h1.length := by
      by_contra hge
      rw [List.getElem?_eq_none (by omega)] at hget
      exact Option.noConfusion hget
    have hgd : h1.getD q.1 "" = q.2 := by
      rw [List.getD_eq_getElem _ _ hq1len]
      exact Option.some.inj (by rw [← hget, List.getElem?_eq_getElem hq1len])
    rw [hq2] at hgd
    have hdl : dictLookup h2 (h1.getD p.1 "") = some p.2 := by rw [hgd]; exact hq3
    obtain ⟨hl1, hl2, hl3⟩ := dictLookup_spec h2 (h1.getD p.1 "") p.2 hdl
    refine ⟨hdl, hl1, hl2, hl3, ?_⟩
    exact exactPassGo_snd_nodup h2 h1.enum [] (by simp)

/-- C2 witness: with duplicated fingerprints on the B side the recorded pair
targets the last duplicate. -/
theorem C2_witness :
    dictLookup ["h", "h"] (["h", "h"].getD 0 "") = some 1 ∧
    (["h", "h"] : List String).getD 1 "" = ["h", "h"].getD 0 "" :=
  ⟨(C2_amended ["h", "h"] ["h", "h"] (0, 1) (by decide)).1,
   (C2_amended ["h", "h"] ["h", "h"] (0, 1) (by decide)).2.2.1⟩

/-- C2 counterexample: both rows of tblDup carry the same fingerprint; the
exact pass pairs A row 0 with B row 1 (the LAST duplicate, not the first
unmatched one) and leaves A row 1 exact-unmatched even though B row 0 still
bears the fingerprint. -/
theorem C2_counterexample :
    (compare_dataframes tblDup tblDup ["id", "v"]).exactPairs = [(0, 1)] ∧
    (compare_dataframes tblDup tblDup ["id", "v"]).exactPairs ≠ [(0, 0), (1, 1)] ∧
    rowHashes (keyColumns ["id", "v"]) tblDup =
      ["1:1", "1:1"] := by decide

/-- C9 (corrected).  Self-comparison yields zero difference records whenever
the table's row fingerprints are pairwise distinct; the duplicate-fingerprint
case the claim includes fails (see the counterexample). -/
theorem C9_amended (df : DataFrame) (cc : List String)
    (hnd : (rowHashes (keyColumns cc) df).Nodup) :
    (compare_dataframes df df cc).differences = [] := by
  have hlen : (rowHashes (keyColumns cc) df).length = df.rows.length :=
    List.length_map _ _
  have hE : exactPairsOf df df cc =
      (List.range df.rows.length).map (fun i => (i, i)) := by
    unfold exactPairsOf
    rw [exactPass_self _ hnd, hlen]
  have hEfst : (exactPairsOf df df cc).map Prod.fst = List.range df.rows.length := by
    rw [hE, List.map_map,
      show (Prod.fst ∘ fun i : Nat => (i, i)) = id from rfl, List.map_id]
  have hER : exactRecords df df cc = [] := by
    unfold exactRecords
    rw [List.flatMap_eq_nil_iff]
    intro p hp
    rw [hE, List.mem_map] at hp
    obtain ⟨k, _, rfl⟩ := hp
    exact exactCellDiffs_self cc (rowAt df.rows k) k k
  have hun1 : unmatched1Of df df cc = [] := by
    unfold unmatched1Of
    rw [List.filter_eq_nil_iff]
    intro a ha
    rw [hEfst]
    intro hcontra
    exact (of_decide_eq_true hcontra) ha
  have hsim : simOut df df cc = ([], [], []) := by
    unfold simOut
    rw [hun1]
    rfl
  have hSR : simRecords df df cc = [] := by
    unfold simRecords
    rw [hsim]
  have hM2 : matched2Of df df cc = List.range df.rows.length := by
    unfold matched2Of simPairsOf
    rw [hsim]
    dsimp only
    rw [List.append_nil, hE, List.map_map,
      show (Prod.snd ∘ fun i : Nat => (i, i)) = id from rfl, List.map_id]
  have hAI : addedIdxOf df df cc = [] := by
    unfold addedIdxOf
    rw [List.filter_eq_nil_iff]
    intro a ha
    rw [hM2]
    intro hcontra
    exact (of_decide_eq_true hcontra) ha
  have hAR : addedRecords df df cc = [] := by
    unfold addedRecords
    rw [hAI]
    rfl
  show exactRecords df df cc ++ simRecords df df cc ++ addedRecords df df cc = []
  rw [hER, hSR, hAR]
  rfl

/-- C9 witness: a self-comparison with distinct fingerprints is empty. -/
theorem C9_witness :
    (compare_dataframes tblA_twin tblA_twin ["id", "v"]).differences = [] :=
  C9_amended tblA_twin ["id", "v"] (by decide)

/-- C9 counterexample: tblDup holds two rows with equal fingerprints; compared
against an identical copy of itself the comparison reports one modified, one
deleted and one added record instead of zero. -/
theorem C9_counterexample :
    (compare_dataframes tblDup tblDup ["id", "v"]).differences =
      [DiffRecord.modified "v" 0 1 "x" "y",
       DiffRecord.deleted 1 [("id", Value.vInt 1), ("v", Value.vStr "y")],
       DiffRecord.added 0 [("id", Value.vInt 1), ("v", Value.vStr "x")]] ∧
    (compare_dataframes tblDup tblDup ["id", "v"]).differences ≠ [] := by decide

/-- C3 (corrected).  A greedy pair is accepted exactly when some candidate
similarity strictly exceeds the 0.8 threshold (part 1); but the scenario rows
(a,b,c columns, 3 against 30 in c) stay at or below similarity 0.775 under
every iteration order of the common-column set, so they are classified as one
deleted plus one added record, not as modified (part 2). -/
theorem C3_amended :
    (∀ (cc kc : List String) (row1 : Row) (rows2 : List Row) (un2 : List Nat),
      bestMatch cc kc row1 rows2 un2 = none ↔
        ∀ j ∈ un2, fLe (calculate_row_similarity cc kc row1 (rowAt rows2 j)) simThreshold) ∧
    (∀ cc ∈ abcOrders,
      (compare_dataframes tblA_abc tblB_abc cc).differences.map recType =
        ["deleted", "added"]) := by
  constructor
  · exact bestMatch_eq_none_iff
  · intro cc hcc
    simp only [abcOrders, List.mem_cons, List.not_mem_nil, or_false] at hcc
    rcases hcc with rfl | rfl | rfl | rfl | rfl | rfl <;> decide

/-- C3 witness at the first column order. -/
theorem C3_witness :
    (compare_dataframes tblA_abc tblB_abc ["a", "b", "c"]).differences.map recType =
      ["deleted", "added"] :=
  C3_amended.2 ["a", "b", "c"] (by simp [abcOrders])

/-- C3 counterexample: the scenario-5 rows do NOT reach the 0.8 threshold
(their similarity is 0.775 here) and are reported deleted plus added, with no
modified record. -/
theorem C3_counterexample :
    (compare_dataframes tblA_abc tblB_abc ["a", "b", "c"]).differences =
      [DiffRecord.deleted 0 [("a", Value.vInt 1), ("b", Value.vInt 2), ("c", Value.vInt 3)],
       DiffRecord.added 0 [("a", Value.vInt 1), ("b", Value.vInt 2), ("c", Value.vInt 30)]] ∧
    ¬ fLt simThreshold
      (calculate_row_similarity ["a", "b", "c"] (keyColumns ["a", "b", "c"])
        (rowAt tblA_abc.rows 0) (rowAt tblB_abc.rows 0)) := by decide

/-- C4 (corrected).  No difference record carries a similarity key at all: a
modified record consists of exactly the six keys type, column, row_index_old,
row_index_new, value_old, value_new. -/
theorem C4_amended (df1 df2 : DataFrame) (cc : List String) (r : DiffRecord)
    (hr : r ∈ (compare_dataframes df1 df2 cc).differences) :
    "similarity" ∉ recordKeys r ∧
      (recType r = "modified" → recordKeys r =
        ["type", "column", "row_index_old", "row_index_new", "value_old", "value_new"]) := by
  cases r <;> constructor <;> simp [recordKeys, recType]

/-- C4 witness: the modified record of the Alice run carries no similarity
key. -/
theorem C4_witness :
    "similarity" ∉ recordKeys (DiffRecord.modified "name" 0 0 "Alice" "Alicia") ∧
      (recType (DiffRecord.modified "name" 0 0 "Alice" "Alicia") = "modified" →
        recordKeys (DiffRecord.modified "name" 0 0 "Alice" "Alicia") =
          ["type", "column", "row_index_old", "row_index_new", "value_old", "value_new"]) :=
  C4_amended tblA_alice tblB_alice ["id", "name"]
    (DiffRecord.modified "name" 0 0 "Alice" "Alicia") (by decide)

/-- C4 counterexample: a run that emits a modified record whose key set lacks
the similarity field the claim requires. -/
theorem C4_counterexample :
    (compare_dataframes tblA_alice tblB_alice ["id", "name"]).differences =
      [DiffRecord.modified "name" 0 0 "Alice" "Alicia"] ∧
    "similarity" ∉ recordKeys (DiffRecord.modified "name" 0 0 "Alice" "Alicia") := by decide

/-- C5 (corrected).  The ordinal-column exclusion holds for the exact pass:
no record it emits concerns an ordinal column.  The similarity-pass cell
comparison performs no such exclusion (see the counterexample). -/
theorem C5_amended (df1 df2 : DataFrame) (cc : List String) (r : DiffRecord)
    (hr : r ∈ exactRecords df1 df2 cc) :
    is_no_column (recColumn r) = false := by
  unfold exactRecords at hr
  rw [List.mem_flatMap] at hr
  obtain ⟨p, _, hp2⟩ := hr
  rw [exactCellDiffs_mem] at hp2
  obtain ⟨c, _, hno, _, rfl⟩ := hp2
  simpa [recColumn] using hno

/-- C5 witness at a run whose exact pass emits a record. -/
theorem C5_witness :
    is_no_column (recColumn (DiffRecord.modified "value" 0 0 "5" "5.0")) = false :=
  C5_amended tblA_five tblB_five ["id", "value"]
    (DiffRecord.modified "value" 0 0 "5" "5.0") (by decide)

/-- C5 counterexample: rows pairing by similarity with their only difference
in the ordinal column no still produce a modified record (and style tag) on
that column. -/
theorem C5_counterexample :
    (compare_dataframes tblA_ord tblB_ord ["name", "no"]).differences =
      [DiffRecord.modified "no" 0 0 "1" "2"] ∧
    is_no_column "no" = true ∧
    (compare_dataframes tblA_ord tblB_ord ["name", "no"]).df1_styles =
      [{ field := "no", rowIndex := 0, cellClass := "ag-cell-modified" }] := by decide

/-- C6 (corrected).  Cell comparison for matched pairs tests the values under
str().strip() rendering only (empty for missing), with no numeric
canonicalisation and no lower-casing: a column yields a modified record
exactly when those rendered strings differ (and, in the exact pass only, the
column is not ordinal). -/
theorem C6_amended (cc : List String) (row1 row2 : Row) (i j : Nat)
    (c : String) (vo vn : String) :
    (DiffRecord.modified c i j vo vn ∈ exactCellDiffs cc row1 row2 i j ↔
      c ∈ cc ∧ is_no_column c = false ∧ vo = cellVal row1 c ∧ vn = cellVal row2 c ∧
        vo ≠ vn) ∧
    (DiffRecord.modified c i j vo vn ∈ simCellDiffs cc row1 row2 i j ↔
      c ∈ cc ∧ vo = cellVal row1 c ∧ vn = cellVal row2 c ∧ vo ≠ vn) := by
  constructor
  · rw [exactCellDiffs_mem]
    constructor
    · rintro ⟨d, hd1, hd2, hd3, heq⟩
      obtain ⟨rfl, -, -, rfl, rfl⟩ :=
        (DiffRecord.modified.injEq _ _ _ _ _ _ _ _ _ _).mp heq
      exact ⟨hd1, hd2, rfl, rfl, hd3⟩
    · rintro ⟨h1, h2, rfl, rfl, h5⟩
      exact ⟨c, h1, h2, h5, rfl⟩
  · rw [simCellDiffs_mem]
    constructor
    · rintro ⟨d, hd1, hd2, heq⟩
      obtain ⟨rfl, -, -, rfl, rfl⟩ :=
        (DiffRecord.modified.injEq _ _ _ _ _ _ _ _ _ _).mp heq
      exact ⟨hd1, rfl, rfl, hd2⟩
    · rintro ⟨h1, rfl, rfl, h4⟩
      exact ⟨c, h1, h4, rfl⟩

/-- C6 counterexample: integer 5 and float 5.0 normalise identically under
the fingerprint normaliser, yet the matched pair reports a modified record
because the comparison is on raw str() renderings ("5" against "5.0"). -/
theorem C6_counterexample :
    (compare_dataframes tblA_five tblB_five ["id", "value"]).differences =
      [DiffRecord.modified "value" 0 0 "5" "5.0"] ∧
    normalize_numeric (Value.vInt 5) = normalize_numeric (Value.vFloat ⟨5, 1⟩) ∧
    (compare_dataframes tblA_five tblB_five ["id", "value"]).exactPairs = [(0, 0)] := by
  decide

/-- C7 (corrected).  The values field of every deleted and added record is the
FULL common-column subset of the corresponding row, with missing (NaN) values
included rather than excluded (to_dict keeps them). -/
theorem C7_amended (df1 df2 : DataFrame) (cc : List String) (r : DiffRecord)
    (hr : r ∈ (compare_dataframes df1 df2 cc).differences) :
    (∀ i vs, r = DiffRecord.deleted i vs → vs = commonSubset cc (rowAt df1.rows i)) ∧
    (∀ j vs, r = DiffRecord.added j vs → vs = commonSubset cc (rowAt df2.rows j)) := by
  have hr' : r ∈ exactRecords df1 df2 cc ++ simRecords df1 df2 cc ++
      addedRecords df1 df2 cc := hr
  rcases List.mem_append.mp hr' with h12 | h3
  · rcases List.mem_append.mp h12 with h1 | h2
    · unfold exactRecords at h1
      rw [List.mem_flatMap] at h1
      obtain ⟨p, _, hp2⟩ := h1
      rw [exactCellDiffs_mem] at hp2
      obtain ⟨c, _, _, _, rfl⟩ := hp2
      exact ⟨fun i vs h => DiffRecord.noConfusion h,
             fun j vs h => DiffRecord.noConfusion h⟩
    · have h2' : r ∈ (simGo cc (keyColumns cc) df1.rows df2.rows
          (unmatched2Of df1 df2 cc) (unmatched1Of df1 df2 cc) [] [] []).2.2 := h2
      rcases simGo_recs_mem cc (keyColumns cc) df1.rows df2.rows
          (unmatched2Of df1 df2 cc) (unmatched1Of df1 df2 cc) [] [] [] r h2' with
        h0 | ⟨c, i', j', vo, vn, rfl⟩ | ⟨i', _, rfl⟩
      · exact absurd h0 (List.not_mem_nil r)
      · exact ⟨fun i vs h => DiffRecord.noConfusion h,
               fun j vs h => DiffRecord.noConfusion h⟩
      · refine ⟨?_, fun j vs h => DiffRecord.noConfusion h⟩
        intro i vs h
        obtain ⟨rfl, rfl⟩ := (DiffRecord.deleted.injEq _ _ _ _).mp h.symm
        rfl
  · unfold addedRecords at h3
    rw [List.mem_map] at h3
    obtain ⟨j', _, rfl⟩ := h3
    refine ⟨fun i vs h => DiffRecord.noConfusion h, ?_⟩
    intro j vs h
    obtain ⟨rfl, rfl⟩ := (DiffRecord.added.injEq _ _ _ _).mp h.symm
    rfl

/-- C7 witness: the deleted record of the NaN run carries the full
common-column subset, missing value included. -/
theorem C7_witness :
    [("id", Value.vInt 5), ("v", Value.vNaN)] =
      commonSubset ["id", "v"] (rowAt tblA_nan.rows 0) :=
  (C7_amended tblA_nan tblB_empty ["id", "v"]
    (DiffRecord.deleted 0 [("id", Value.vInt 5), ("v", Value.vNaN)]) (by decide)).1
    0 [("id", Value.vInt 5), ("v", Value.vNaN)] rfl

/-- C7 counterexample: the deleted record of a row holding NaN in common
column v KEEPS the pair (v, NaN) in its values field instead of excluding the
missing value. -/
theorem C7_counterexample :
    (compare_dataframes tblA_nan tblB_empty ["id", "v"]).differences =
      [DiffRecord.deleted 0 [("id", Value.vInt 5), ("v", Value.vNaN)]] ∧
    ("v", Value.vNaN) ∈ [("id", Value.vInt 5), ("v", Value.vNaN)] ∧
    isna (Value.vNaN) = true := by decide

theorem rowGet_append_hash (r : Row) (c k : String) (v : Value) (hck : c ≠ k) :
    rowGet (r ++ [(k, v)]) c = rowGet r c := by
  unfold rowGet
  rw [List.find?_append]
  cases hf : r.find? (fun p => p.1 == c) with
  | some q => rfl
  | none =>
    have : ((k, v).1 == c) = false := by
      simp only [beq_eq_false_iff_ne, ne_eq]
      exact fun h => hck h.symm
    simp [this]

/-- C8 (corrected).  compare_dataframes mutates both INPUT tables: it appends
the helper column _row_hash to each and never removes it.  Every original
column keeps its cell values, and the returned result copies are the inputs
with the helper column dropped (a no-op here, the copies being taken before
the mutation). -/
theorem C8_amended (df1 df2 : DataFrame) (cc : List String) :
    (compare_dataframes df1 df2 cc).df1_final.cols = df1.cols ++ ["_row_hash"] ∧
    (compare_dataframes df1 df2 cc).df2_final.cols = df2.cols ++ ["_row_hash"] ∧
    (compare_dataframes df1 df2 cc).df1_final.rows.length = df1.rows.length ∧
    (compare_dataframes df1 df2 cc).df2_final.rows.length = df2.rows.length ∧
    (∀ i c, c ≠ "_row_hash" →
      rowGet (rowAt (compare_dataframes df1 df2 cc).df1_final.rows i) c =
        rowGet (rowAt df1.rows i) c) ∧
    (∀ i c, c ≠ "_row_hash" →
      rowGet (rowAt (compare_dataframes df1 df2 cc).df2_final.rows i) c =
        rowGet (rowAt df2.rows i) c) ∧
    (compare_dataframes df1 df2 cc).df1_result = dropHashColumn df1 ∧
    (compare_dataframes df1 df2 cc).df2_result = dropHashColumn df2 := by
  have hlen : ∀ (df : DataFrame),
      (addHashColumn df (rowHashes (keyColumns cc) df)).rows.length =
        df.rows.length := by
    intro df
    show (List.zipWith _ df.rows (rowHashes (keyColumns cc) df)).length = _
    rw [List.length_zipWith]
    unfold rowHashes
    rw [List.length_map]
    exact Nat.min_self _
  have hget : ∀ (df : DataFrame) (i : Nat) (c : String), c ≠ "_row_hash" →
      rowGet (rowAt (addHashColumn df (rowHashes (keyColumns cc) df)).rows i) c =
        rowGet (rowAt df.rows i) c := by
    intro df i c hc
    by_cases hi : i < df.rows.length
    · have hilt : i < (List.zipWith (fun r h => r ++ [("_row_hash", Value.vStr h)])
          df.rows (List.map (create_row_hash (keyColumns cc)) df.rows)).length := by
        rw [List.length_zipWith, List.length_map, Nat.min_self]
        exact hi
      have hrow : rowAt (addHashColumn df (rowHashes (keyColumns cc) df)).rows i =
          df.rows[i] ++ [("_row_hash", Value.vStr (create_row_hash (keyColumns cc) df.rows[i]))] := by
        show (List.zipWith (fun r h => r ++ [("_row_hash", Value.vStr h)])
          df.rows (List.map (create_row_hash (keyColumns cc)) df.rows)).getD i [] = _
        rw [List.getD_eq_getElem _ _ hilt, List.getElem_zipWith, List.getElem_map]
      rw [hrow, rowGet_append_hash _ _ _ _ hc]
      unfold rowAt
      rw [List.getD_eq_getElem _ _ hi]
    · have h1 : rowAt (addHashColumn df (rowHashes (keyColumns cc) df)).rows i = [] := by
        unfold rowAt
        exact List.getD_eq_default _ _ (by rw [hlen df]; omega)
      have h2 : rowAt df.rows i = [] := by
        unfold rowAt
        exact List.getD_eq_default _ _ (by omega)
      rw [h1, h2]
  exact ⟨rfl, rfl, hlen df1, hlen df2,
    fun i c hc => hget df1 i c hc, fun i c hc => hget df2 i c hc, rfl, rfl⟩

/-- C8 witness: the Alice tables after the run. -/
theorem C8_witness :
    (compare_dataframes tblA_alice tblB_alice ["id", "name"]).df1_final.cols =
      tblA_alice.cols ++ ["_row_hash"] ∧
    rowGet (rowAt (compare_dataframes tblA_alice tblB_alice ["id", "name"]).df1_final.rows 0)
        "name" = rowGet (rowAt tblA_alice.rows 0) "name" :=
  ⟨(C8_amended tblA_alice tblB_alice ["id", "name"]).1,
   (C8_amended tblA_alice tblB_alice ["id", "name"]).2.2.2.2.1 0 "name" (by decide)⟩

/-- C8 counterexample: after the run the first INPUT table is no longer equal
to its entry state; it carries the helper _row_hash column. -/
theorem C8_counterexample :
    (compare_dataframes tblA_alice tblB_alice ["id", "name"]).df1_final ≠ tblA_alice ∧
    (compare_dataframes tblA_alice tblB_alice ["id", "name"]).df1_final.cols =
      ["id", "name", "_row_hash"] ∧
    tblA_alice.cols = ["id", "name"] := by decide

/-- C10 (confirmed).  compare_shapes never consumes a matched shape: every
second-list shape whose (x, y, type) triple matches SOME first-list shape is
never reported added (even when several second-list shapes match the same
first-list shape), and every first-list shape with a positional match in the
second list is never reported deleted. -/
theorem C10_theorem (shapes1 shapes2 : List Shape) :
    (∀ idx2 s2, shapes2[idx2]? = some s2 →
      (∃ s1 ∈ shapes1, sameShapePos s1 s2 = true) →
      ∀ s, ShapeDiff.addedS idx2 s ∉ compare_shapes shapes1 shapes2) ∧
    (∀ idx1 s1, shapes1[idx1]? = some s1 →
      (∃ t ∈ shapes2, sameShapePos s1 t = true) →
      ∀ s, ShapeDiff.deletedS idx1 s ∉ compare_shapes shapes1 shapes2) := by
  constructor
  · rintro idx2 s2 hget ⟨s1, hs1, hpos⟩ s hmem
    unfold compare_shapes at hmem
    rcases List.mem_append.mp hmem with h1 | h2
    · rw [List.mem_flatMap] at h1
      obtain ⟨p, hp1, hp2⟩ := h1
      cases hf : shapes1.find? (fun x => sameShapePos x p.2) with
      | some t =>
        rw [hf] at hp2
        dsimp only at hp2
        split at hp2 <;> simp at hp2
      | none =>
        rw [hf] at hp2
        dsimp only at hp2
        rw [List.mem_singleton] at hp2
        obtain ⟨rfl, rfl⟩ := (ShapeDiff.addedS.injEq _ _ _ _).mp hp2
        have hp2' : shapes2[p.1]? = some p.2 := List.mem_enum_iff_getElem?.mp hp1
        rw [hget] at hp2'
        obtain rfl : s2 = p.2 := Option.some.inj hp2'
        rw [List.find?_eq_none] at hf
        exact (hf s1 hs1) hpos
    · rw [List.mem_flatMap] at h2
      obtain ⟨p, hp1, hp2⟩ := h2
      split at hp2
      · exact List.not_mem_nil _ hp2
      · rw [List.mem_singleton] at hp2
        exact ShapeDiff.noConfusion hp2
  · rintro idx1 s1 hget ⟨t, ht1, hpos⟩ s hmem
    unfold compare_shapes at hmem
    rcases List.mem_append.mp hmem with h1 | h2
    · rw [List.mem_flatMap] at h1
      obtain ⟨p, hp1, hp2⟩ := h1
      cases hf : shapes1.find? (fun x => sameShapePos x p.2) with
      | some u =>
        rw [hf] at hp2
        dsimp only at hp2
        split at hp2 <;> simp at hp2
      | none =>
        rw [hf] at hp2
        dsimp only at hp2
        rw [List.mem_singleton] at hp2
        exact ShapeDiff.noConfusion hp2
    · rw [List.mem_flatMap] at h2
      obtain ⟨p, hp1, hp2⟩ := h2
      by_cases hany : shapes2.any (fun s2 => sameShapePos p.2 s2)
      · rw [if_pos hany] at hp2
        exact List.not_mem_nil _ hp2
      · rw [if_neg hany] at hp2
        rw [List.mem_singleton] at hp2
        obtain ⟨rfl, rfl⟩ := (ShapeDiff.deletedS.injEq _ _ _ _).mp hp2
        have hp2' : shapes1[p.1]? = some p.2 := List.mem_enum_iff_getElem?.mp hp1
        rw [hget] at hp2'
        obtain rfl : s1 = p.2 := Option.some.inj hp2'
        rw [List.any_eq_true] at hany
        push_neg at hany
        exact (hany t ht1) hpos

/-- C10 witness: one base shape matched positionally by two second-list
shapes; neither second-list shape is added and the base shape is not
deleted. -/
theorem C10_witness :
    ShapeDiff.addedS 1 shWide ∉ compare_shapes [shBase] [shBase, shWide] ∧
    ShapeDiff.deletedS 0 shBase ∉ compare_shapes [shBase] [shBase, shWide] :=
  ⟨(C10_theorem [shBase] [shBase, shWide]).1 1 shWide (by decide)
      ⟨shBase, by decide, by decide⟩ shWide,
   (C10_theorem [shBase] [shBase, shWide]).2 0 shBase (by decide)
      ⟨shBase, by decide, by decide⟩ shBase⟩
